import Mathlib

/-!
Shallow embedding of `src/data/index.js` of the gutenberg data module: a
store registry over Redux-style stores, a global listener bus, and the three
higher-order components `withSelect`, `withDispatch` and `withData`.

JS reference identity of state objects is modelled by equality in a type `V`
with decidable equality: elements of `V` stand for JS references (or
primitives), so `=` on `V` plays the role of JS `===` / `Object.is`.
A reducer that returns "the same reference" returns an equal element of `V`;
a reducer that allocates a fresh object returns a different element.
JS objects used as prop bags are modelled as association lists
`List (String × α)` with unique keys, looked up by `List.lookup`.
-/

namespace Gutenberg

/-- Concrete JS-like values used to instantiate the machine on the concrete
examples appearing in the spec.  Structural equality on `JSVal` plays the
role of reference equality: distinct constructions stand for distinct
references. -/
inductive JSVal : Type
  | undefined : JSVal
  | num : Int → JSVal
  | str : String → JSVal
  | nil : JSVal
  | field : String → JSVal → JSVal → JSVal
deriving DecidableEq, Repr

/-- Field access `v[k]` on a JS object (an object being encoded as a
`field`-chain ended by `nil`), `undefined` otherwise. -/
def getField : JSVal → String → JSVal
  | .field k v rest, key => if k = key then v else getField rest key
  | _, _ => .undefined

/-- The `shallowequal` package: two objects are shallowly equal when they
have the same own keys and `Object.is`-equal values for each key (one level
deep).  Values are compared with `=` on `α`, the model of `Object.is`. -/
def shallowEqualObj {α : Type} [DecidableEq α] (a b : List (String × α)) : Bool :=
  a.all (fun p => match b.lookup p.1 with | some v => decide (v = p.2) | none => false) &&
  b.all (fun p => match a.lookup p.1 with | some v => decide (v = p.2) | none => false)

/-- React `setState` object merge: keys of `b` override those of `a`. -/
def mergeObj {α : Type} (a b : List (String × α)) : List (String × α) :=
  a.filter (fun p => (b.lookup p.1).isNone) ++ b

/-- lodash `without(listeners, listener)` (used by the closure returned from
`subscribe`, src/data/index.js lines 147-149): a new array with every
element `===`-equal to `listener` removed. -/
def without {L : Type} [DecidableEq L] (ls : List L) (l : L) : List L :=
  ls.filter (fun x => x ≠ l)

/-- `subscribe(listener)` (src/data/index.js lines 144-150): pushes the
listener onto the global `listeners` array.  The returned unsubscribe
closure performs `listeners = without(listeners, listener)`, modelled by
`without`. -/
def subscribe {L : Type} (ls : List L) (l : L) : List L := ls ++ [l]

/-- `globalListener()` (src/data/index.js lines 30-32):
`listeners.forEach((listener) => listener())`.  A listener's behaviour is
`behave l = none` (returns normally) or `behave l = some e` (throws `e`).
The result is the trace of listeners actually invoked, in order, together
with the exception that escaped, if any: `forEach` iterates the array
snapshotted at call start (appends during iteration are not visited, and
unsubscription replaces the array without touching the snapshot), and an
exception thrown by a listener aborts the iteration and propagates. -/
def globalListener {L E : Type} (behave : L → Option E) : List L → List L × Option E
  | [] => ([], none)
  | l :: ls =>
    match behave l with
    | some e => ([l], some e)
    | none =>
      let t := globalListener behave ls
      (l :: t.1, t.2)

/-- A store object as set up by `registerReducer` (src/data/index.js lines
68-90): the Redux store (its reducer and current state) together with the
`lastState` closure variable of the internal subscription installed there. -/
structure StoreObj (V : Type) where
  reducer : V → V → V
  state : V
  lastState : V

/-- `registerReducer`'s store creation: `createStore(reducer)` computes the
initial state as `reducer(undefined, INIT)` (`u` models `undefined`, `i`
models the Redux INIT action), and `lastState` is initialised to
`store.getState()` (line 78). -/
def StoreObj.new {V : Type} (reducer : V → V → V) (u i : V) : StoreObj V :=
  let s0 := reducer u i
  ⟨reducer, s0, s0⟩

/-- One `store.dispatch(a)` on a store registered through `registerReducer`:
Redux replaces the state by `reducer(state, a)` and then invokes every
subscriber; the single internal subscriber (src/data/index.js lines 79-87)
reads the new state, compares it by reference against `lastState`, updates
`lastState`, and calls `globalListener()` only when the reference changed.
The second component counts the `globalListener()` calls this dispatch
caused (0 or 1). -/
def StoreObj.dispatchAction {V : Type} [DecidableEq V] (s : StoreObj V) (a : V) :
    StoreObj V × Nat :=
  let st := s.reducer s.state a
  ({ s with state := st, lastState := st }, if st = s.lastState then 0 else 1)

/-- A sequence of dispatches against one registered store; returns the final
store and the number of global-listener-bus firings caused by each dispatch,
in order. -/
def StoreObj.dispatchAll {V : Type} [DecidableEq V] (s : StoreObj V) :
    List V → StoreObj V × List Nat
  | [] => (s, [])
  | a :: as =>
    let t := s.dispatchAction a
    let r := t.1.dispatchAll as
    (r.1, t.2 :: r.2)

/-- A selector-registry entry produced by `registerSelectors`
(src/data/index.js lines 113-122): the store captured by the
`createStateSelector` closure at registration time (`none` when the key had
no registered store, modelling the captured `undefined`), the underlying
selector function `(state, ...args) => value`, and whether the registered
entry carried an `effect` function (entries registered as plain functions
have none; entries registered as `{ select, effect }` objects keep it via
the object spread). -/
structure SelectorEntry (V : Type) where
  storeId : Option Nat
  sel : V → List V → V
  hasEffect : Bool

/-- An action-registry entry produced by `registerActions` (src/data/index.js
lines 131-135): the store captured by `createBoundAction` at registration
time and the raw action creator `(...args) => action`. -/
structure ActionEntry (V : Type) where
  storeId : Option Nat
  act : List V → V

/-- A selector as passed by the user to `registerSelectors`: either a plain
function (`hasEffect = false`) or a `{ select, effect }` object
(`hasEffect = true`). -/
structure RawSelector (V : Type) where
  sel : V → List V → V
  hasEffect : Bool

/-- The `options` argument of `registerStore` (src/data/index.js lines
42-58); a missing (falsy) field is `none`. -/
structure StoreOptions (V : Type) where
  reducer : Option (V → V → V)
  actions : Option (List (String × (List V → V)))
  selectors : Option (List (String × RawSelector V))

/-- The module-level mutable registries (src/data/index.js lines 22-24).
Store objects live in `storeHeap`, addressed by allocation index, so that a
closure capturing a store keeps pointing at that same mutable instance even
after the `stores` map is overwritten for its key; `stores`, `selectors` and
`actions` map a reducer key to its latest registration (assignment to a JS
object field overwrites, modelled by consing and first-match lookup). -/
structure Registry (V : Type) where
  storeHeap : List (StoreObj V)
  stores : List (String × Nat)
  selectors : List (String × List (String × SelectorEntry V))
  actions : List (String × List (String × ActionEntry V))

/-- The registries before any registration. -/
def Registry.empty {V : Type} : Registry V := ⟨[], [], [], []⟩

/-- `registerReducer(reducerKey, reducer)` (src/data/index.js lines 68-90):
creates a fresh store from the reducer (no devtools enhancer in this model)
and records it under the key, overwriting any previous binding; returns the
store (as its heap index). -/
def registerReducer {V : Type} (reg : Registry V) (u i : V) (reducerKey : String)
    (reducer : V → V → V) : Registry V × Nat :=
  let store := StoreObj.new reducer u i
  let id := reg.storeHeap.length
  ({ reg with
      storeHeap := reg.storeHeap ++ [store],
      stores := (reducerKey, id) :: reg.stores }, id)

/-- `registerSelectors(reducerKey, newSelectors)` (src/data/index.js lines
113-122): captures `stores[reducerKey]` once and wraps every selector so
that invocation supplies `store.getState()` as first argument; each entry
keeps its optional `effect` via the object spread. -/
def registerSelectors {V : Type} (reg : Registry V) (reducerKey : String)
    (newSelectors : List (String × RawSelector V)) : Registry V :=
  let store := reg.stores.lookup reducerKey
  { reg with
      selectors :=
        (reducerKey,
          newSelectors.map (fun p => (p.1, ⟨store, p.2.sel, p.2.hasEffect⟩)))
        :: reg.selectors }

/-- `registerActions(reducerKey, newActions)` (src/data/index.js lines
131-135): captures `stores[reducerKey]` once and wraps every action creator
so that invocation dispatches its result to that store. -/
def registerActions {V : Type} (reg : Registry V) (reducerKey : String)
    (newActions : List (String × (List V → V))) : Registry V :=
  let store := reg.stores.lookup reducerKey
  { reg with
      actions :=
        (reducerKey, newActions.map (fun p => (p.1, ⟨store, p.2⟩)))
        :: reg.actions }

/-- `registerStore(reducerKey, options)` (src/data/index.js lines 42-58):
throws `TypeError('Must specify store reducer')` when `options.reducer` is
falsy, before anything is registered (the error result carries no updated
registry); otherwise registers the reducer, then the actions if present,
then the selectors if present, and returns the store. -/
def registerStore {V : Type} (reg : Registry V) (u i : V) (reducerKey : String)
    (options : StoreOptions V) : Except String (Registry V × Nat) :=
  match options.reducer with
  | none => .error "Must specify store reducer"
  | some reducer =>
    let t := registerReducer reg u i reducerKey reducer
    let reg2 := match options.actions with
      | some as => registerActions t.1 reducerKey as
      | none => t.1
    let reg3 := match options.selectors with
      | some ss => registerSelectors reg2 reducerKey ss
      | none => reg2
    .ok (reg3, t.2)

/-- Invoking a bound selector: the closure built by `createStateSelector`
reads `store.getState()` at call time from the store captured at
registration.  `none` models the TypeError raised when the captured store
was `undefined` (or, unreachable for entries built by the code, a dangling
index). -/
def applySelect {V : Type} (reg : Registry V) (e : SelectorEntry V) (args : List V) :
    Option V :=
  e.storeId.bind fun id => (reg.storeHeap[id]?).map fun st => e.sel st.state args

/-- `select(reducerKey)` (src/data/index.js lines 160-162):
`mapValues(selectors[reducerKey], (selector) => selector.select)`; lodash
`mapValues(undefined)` is `{}`, so an unregistered key yields the empty
mapping. -/
def select {V : Type} (reg : Registry V) (reducerKey : String) :
    List (String × (List V → Option V)) :=
  match reg.selectors.lookup reducerKey with
  | none => []
  | some entries => entries.map fun p => (p.1, fun args => applySelect reg p.2 args)

/-- `dispatch(reducerKey)` (src/data/index.js lines 172-174): returns
`actions[reducerKey]` as is — the map of bound actions, or `undefined`
(`none`) when no actions were ever registered for the key. -/
def dispatch {V : Type} (reg : Registry V) (reducerKey : String) :
    Option (List (String × ActionEntry V)) :=
  reg.actions.lookup reducerKey

/-- Invoking a bound action: the closure built by `createBoundAction`
performs `store.dispatch(action(...args))` on the store captured at
registration; the store's internal subscription then fires the global
listener bus when the state reference changed (second component of the
result).  `none` models the TypeError of dispatching on an `undefined`
store. -/
def applyAction {V : Type} [DecidableEq V] (reg : Registry V) (e : ActionEntry V)
    (args : List V) : Option (Registry V × Nat) :=
  e.storeId.bind fun id =>
    (reg.storeHeap[id]?).map fun st =>
      let t := st.dispatchAction (e.act args)
      ({ reg with storeHeap := reg.storeHeap.set id t.1 }, t.2)

/-- Selector-registry lookup `selectors[reducerKey][key]`. -/
def lookupSelectorEntry {V : Type} (reg : Registry V) (reducerKey key : String) :
    Option (SelectorEntry V) :=
  (reg.selectors.lookup reducerKey).bind fun es => es.lookup key

/-- The `select` function as handed to a `withSelect` mapping function: the
reducer key yields the mapping of bound selectors. -/
abbrev SelProvider (V : Type) := String → List (String × (List V → Option V))

/-- An instance of the `ComponentWithSelect` class produced by `withSelect`
(src/data/index.js lines 186-246): its own props, `this.state.mergeProps`
(`none` models the initial `undefined`, since `this.state` starts as `{}`),
the `isUnmounting` latch and whether the global-bus subscription of
`subscribe()` is live. -/
structure ComponentWithSelect (V : Type) where
  props : List (String × V)
  mergeProps : Option (List (String × V))
  isUnmounting : Bool
  subscribed : Bool

/-- A freshly constructed, not yet mounted `ComponentWithSelect`. -/
def ComponentWithSelect.new {V : Type} (props : List (String × V)) :
    ComponentWithSelect V :=
  ⟨props, none, false, false⟩

/-- `ComponentWithSelect.runSelection(props = this.props)` (src/data/index.js
lines 223-236): bails out when `isUnmounting` is latched; otherwise computes
`mapStateToProps(select, props)` and calls `setState` exactly when the new
merge props are not shallowly equal to the previous ones
(`isShallowEqual(next, undefined)` is false, so the first run always sets).
The boolean reports whether `setState` was applied. -/
def ComponentWithSelect.runSelection {V : Type} [DecidableEq V]
    (mapStateToProps : SelProvider V → List (String × V) → List (String × V))
    (reg : Registry V) (c : ComponentWithSelect V) (props : List (String × V)) :
    ComponentWithSelect V × Bool :=
  if c.isUnmounting then (c, false)
  else
    let nextMergeProps := mapStateToProps (select reg) props
    match c.mergeProps with
    | some mp =>
      if shallowEqualObj nextMergeProps mp then (c, false)
      else ({ c with mergeProps := some nextMergeProps }, true)
    | none => ({ c with mergeProps := some nextMergeProps }, true)

/-- `ComponentWithSelect.componentWillMount` (src/data/index.js lines
196-201): subscribes `runSelection` to the global bus and populates the
initial state. -/
def ComponentWithSelect.componentWillMount {V : Type} [DecidableEq V]
    (mapStateToProps : SelProvider V → List (String × V) → List (String × V))
    (reg : Registry V) (c : ComponentWithSelect V) :
    ComponentWithSelect V × Bool :=
  ComponentWithSelect.runSelection mapStateToProps reg
    { c with subscribed := true } c.props

/-- `ComponentWithSelect.componentWillUnmount` (src/data/index.js lines
209-217): unsubscribes from the global bus and latches `isUnmounting`, so
that a `runSelection` whose callback was already snapshotted by an in-flight
`globalListener` cycle becomes a no-op. -/
def ComponentWithSelect.componentWillUnmount {V : Type}
    (c : ComponentWithSelect V) : ComponentWithSelect V :=
  { c with subscribed := false, isUnmounting := true }

/-- A resolver record built by `ComponentWithData.resolve` (src/data/index.js
lines 349-360): the arguments, the selector name, and the reducer key. -/
structure Resolver (V : Type) where
  args : List V
  key : String
  reducerKey : String
deriving DecidableEq

/-- The `resolve` function handed to a `withData` mapping function: for a
reducer key it offers, per registered selector name, a function from
arguments to the resolver record. -/
abbrev ResolveProvider (V : Type) := String → List (String × (List V → Resolver V))

/-- `ComponentWithData.resolve`'s inner `resolve(reducerKey)`
(src/data/index.js lines 350-358): `mapValues` over
`selectors[reducerKey]`, so only registered selector names are offered
(`mapValues(undefined)` is `{}`). -/
def resolveProvider {V : Type} (reg : Registry V) : ResolveProvider V :=
  fun reducerKey =>
    match reg.selectors.lookup reducerKey with
    | none => []
    | some es => es.map fun p => (p.1, fun args => ⟨args, p.1, reducerKey⟩)

/-- An instance of the `ComponentWithData` class produced by `withData`
(src/data/index.js lines 317-404): own props, `this.state` (the selected
values; `Option V` because a bound selector read is `applySelect`), the
`this.resolvers` bookkeeping keyed by prop name, and whether the global-bus
subscription is live.  Unlike `ComponentWithSelect` there is no
`isUnmounting` field: the class never defines one. -/
structure ComponentWithData (V : Type) where
  props : List (String × V)
  state : List (String × Option V)
  resolvers : List (String × Resolver V)
  subscribed : Bool

/-- A freshly constructed, not yet mounted `ComponentWithData`
(`this.state = {}`, `this.resolvers = {}`). -/
def ComponentWithData.new {V : Type} (props : List (String × V)) :
    ComponentWithData V :=
  ⟨props, [], [], false⟩

/-- `ComponentWithData.runSelection` (src/data/index.js lines 386-394):
recomputes the selected value of every tracked resolver through the selector
registry and calls `setState(newState)` (a React merge into `this.state`)
exactly when the new mapping is not shallowly equal to `this.state`.  There
is no unmount guard in this method.  The boolean reports whether `setState`
was applied. -/
def ComponentWithData.runSelection {V : Type} [DecidableEq V] (reg : Registry V)
    (c : ComponentWithData V) : ComponentWithData V × Bool :=
  let newState := c.resolvers.map fun p =>
    (p.1, (lookupSelectorEntry reg p.2.reducerKey p.2.key).bind
      fun e => applySelect reg e p.2.args)
  if shallowEqualObj newState c.state then (c, false)
  else ({ c with state := mergeObj c.state newState }, true)

/-- `ComponentWithData.runSideEffects(resolvers)` (src/data/index.js lines
377-384) as a trace: the prop-keyed resolver records whose registry entry
carries an `effect`, i.e. the effect invocations `selector.effect(...args)`
performed, in order. -/
def ComponentWithData.effectInvocations {V : Type} (reg : Registry V)
    (resolvers : List (String × Resolver V)) : List (String × Resolver V) :=
  resolvers.filter fun p =>
    match lookupSelectorEntry reg p.2.reducerKey p.2.key with
    | some e => e.hasEffect
    | none => false

/-- `ComponentWithData.runResolvers(props = this.props)` (src/data/index.js
lines 362-375): re-derives the resolver records from the mapping function;
`omitBy` drops a record when the previous record under the same prop key has
the same selector `key` and shallowly equal `args` (the reducer key is not
compared); the surviving records' effects run (`runSideEffects`), and then
the selection is recomputed.  Returns the updated instance, the trace of
effect invocations, and whether `runSelection` applied a `setState`. -/
def ComponentWithData.runResolvers {V : Type} [DecidableEq V]
    (mapStateToProps : ResolveProvider V → List (String × V) → List (String × Resolver V))
    (reg : Registry V) (c : ComponentWithData V) (props : List (String × V)) :
    ComponentWithData V × List (String × Resolver V) × Bool :=
  let resolvers := mapStateToProps (resolveProvider reg) props
  let newResolvers := resolvers.filter fun p =>
    match c.resolvers.lookup p.1 with
    | some prev => ¬ (prev.key = p.2.key ∧ prev.args = p.2.args)
    | none => true
  let c1 := { c with resolvers := resolvers }
  let fired := ComponentWithData.effectInvocations reg newResolvers
  let t := c1.runSelection reg
  (t.1, fired, t.2)

/-- `ComponentWithData.componentWillMount` (src/data/index.js lines
328-333): subscribes `runSelection` to the global bus and runs the
resolvers for the initial props. -/
def ComponentWithData.componentWillMount {V : Type} [DecidableEq V]
    (mapStateToProps : ResolveProvider V → List (String × V) → List (String × Resolver V))
    (reg : Registry V) (c : ComponentWithData V) :
    ComponentWithData V × List (String × Resolver V) × Bool :=
  ComponentWithData.runResolvers mapStateToProps reg
    { c with subscribed := true } c.props

/-- `ComponentWithData.componentWillReceiveProps(nextProps)`
(src/data/index.js lines 335-339): runs the resolvers only when the next
props are not shallowly equal to the current ones; afterwards React commits
`nextProps` as `this.props`. -/
def ComponentWithData.componentWillReceiveProps {V : Type} [DecidableEq V]
    (mapStateToProps : ResolveProvider V → List (String × V) → List (String × Resolver V))
    (reg : Registry V) (c : ComponentWithData V) (nextProps : List (String × V)) :
    ComponentWithData V × List (String × Resolver V) × Bool :=
  if shallowEqualObj nextProps c.props then ({ c with props := nextProps }, [], false)
  else
    let t := ComponentWithData.runResolvers mapStateToProps reg c nextProps
    ({ t.1 with props := nextProps }, t.2.1, t.2.2)

/-- `ComponentWithData.componentWillUnmount` (src/data/index.js lines
341-343): only `this.unsubscribe()` — no `isUnmounting` latch is set and
`runSelection` has no guard, in contrast with `ComponentWithSelect`. -/
def ComponentWithData.componentWillUnmount {V : Type} (c : ComponentWithData V) :
    ComponentWithData V :=
  { c with subscribed := false }

/-- The `mapDispatchToProps` argument of `withDispatch`, already applied to
the module's `dispatch`: from own props to the mapping of prop name to
dispatcher (`R` is the dispatcher's result type). -/
abbrev MapDispatch (V R : Type) := List (String × V) → List (String × (List V → R))

/-- An instance of the `ComponentWithDispatch` class produced by
`withDispatch` (src/data/index.js lines 260-305): own props, and
`this.proxyProps` mapping each prop name to the identity of the bound
callback `this.proxyDispatch.bind(this, propName)`.  Function references are
modelled by allocation numbers: `nextId` is the allocator, and a pre-bound
callback keeps its number for as long as it is kept. -/
structure ComponentWithDispatch (V : Type) where
  props : List (String × V)
  proxyProps : List (String × Nat)
  nextId : Nat

/-- The `mapValues` body of `setProxyProps` (src/data/index.js lines
285-294): for each dispatcher prop name, reuse the previously bound callback
when `this.proxyProps.hasOwnProperty(propName)`, otherwise create a fresh
bound function (a fresh allocation number). -/
def allocProxy {V R : Type} (old : List (String × Nat)) :
    List (String × (List V → R)) → Nat → List (String × Nat) × Nat
  | [], n => ([], n)
  | p :: rest, n =>
    match old.lookup p.1 with
    | some id =>
      let t := allocProxy old rest n
      ((p.1, id) :: t.1, t.2)
    | none =>
      let t := allocProxy old rest (n + 1)
      ((p.1, n) :: t.1, t.2)

/-- `ComponentWithDispatch.setProxyProps(props)` (src/data/index.js lines
281-295): recompute `this.proxyProps` from `mapDispatchToProps(dispatch,
props)`, reusing existing bound callbacks per prop name. -/
def ComponentWithDispatch.setProxyProps {V R : Type} (mapD : MapDispatch V R)
    (c : ComponentWithDispatch V) (props : List (String × V)) :
    ComponentWithDispatch V :=
  let propsToDispatchers := mapD props
  let t := allocProxy (V := V) (R := R) c.proxyProps propsToDispatchers c.nextId
  { c with proxyProps := t.1, nextId := t.2 }

/-- `ComponentWithDispatch` construction plus `componentWillMount`
(src/data/index.js lines 262-270): `this.proxyProps = {}` then
`setProxyProps(this.props)`. -/
def ComponentWithDispatch.mount {V R : Type} (mapD : MapDispatch V R)
    (props : List (String × V)) : ComponentWithDispatch V :=
  ComponentWithDispatch.setProxyProps mapD ⟨props, [], 0⟩ props

/-- `ComponentWithDispatch.componentWillUpdate(nextProps)` (src/data/index.js
lines 272-274) followed by React committing `nextProps` as `this.props`. -/
def ComponentWithDispatch.componentWillUpdate {V R : Type} (mapD : MapDispatch V R)
    (c : ComponentWithDispatch V) (nextProps : List (String × V)) :
    ComponentWithDispatch V :=
  let c1 := ComponentWithDispatch.setProxyProps mapD c nextProps
  { c1 with props := nextProps }

/-- A whole sequence of re-renders: `componentWillUpdate` once per element
of `updates`, in order. -/
def ComponentWithDispatch.applyUpdates {V R : Type} (mapD : MapDispatch V R)
    (c : ComponentWithDispatch V) (updates : List (List (String × V))) :
    ComponentWithDispatch V :=
  updates.foldl (fun acc np => ComponentWithDispatch.componentWillUpdate mapD acc np) c

/-- `ComponentWithDispatch.proxyDispatch(propName, ...args)`
(src/data/index.js lines 276-279): every injected callback, when invoked,
recomputes `mapDispatchToProps(dispatch, this.props)` from the props current
at invocation time and forwards its arguments to the dispatcher under its
prop name (`none` models the TypeError when the name is absent). -/
def ComponentWithDispatch.proxyDispatch {V R : Type} (mapD : MapDispatch V R)
    (c : ComponentWithDispatch V) (propName : String) (args : List V) : Option R :=
  ((mapD c.props).lookup propName).map fun d => d args

/-! ### The concrete store of the spec's round-trip example -/

/-- The reducer of the spec's example: handles `SET` by storing the value,
with initial state `{ value: 0 }`. -/
def demoReducer : JSVal → JSVal → JSVal := fun s a =>
  let s0 := if s = .undefined then .field "value" (.num 0) .nil else s
  if getField a "type" = .str "SET" then .field "value" (getField a "value") .nil
  else s0

/-- The spec example's `setValue = (v) => ({type: 'SET', value: v})`. -/
def setValueAction : List JSVal → JSVal := fun args =>
  .field "type" (.str "SET") (.field "value" (args.headD .undefined) .nil)

/-- The spec example's `getValue = (state) => state.value`. -/
def getValueSelector : JSVal → List JSVal → JSVal := fun st _ => getField st "value"

/-- The spec example's `registerStore` options. -/
def demoOptions : StoreOptions JSVal :=
  ⟨some demoReducer, some [("setValue", setValueAction)],
   some [("getValue", ⟨getValueSelector, false⟩)]⟩

/-- The registry after registering the spec example's store under `key`. -/
def demoRegistry : Registry JSVal :=
  match registerStore Registry.empty .undefined (.str "INIT") "key" demoOptions with
  | .ok t => t.1
  | .error _ => Registry.empty

/-! ### Theorems -/

theorem dispatchAll_fires_aux {V : Type} [DecidableEq V] (red : V → V → V)
    (as : List V) : ∀ st : V,
    (StoreObj.dispatchAll ⟨red, st, st⟩ as).2 =
      ((List.scanl red st as).zip ((List.scanl red st as).tail)).map
        (fun p => if p.2 = p.1 then 0 else 1) := by
  induction as with
  | nil => intro st; simp [StoreObj.dispatchAll]
  | cons a as ih =>
    intro st
    cases as with
    | nil =>
      simp [StoreObj.dispatchAll, StoreObj.dispatchAction]
    | cons b as2 =>
      have h := ih (red st a)
      simp only [StoreObj.dispatchAll, StoreObj.dispatchAction, List.scanl_cons,
        List.tail_cons, List.zip_cons_cons, List.map_cons] at h ⊢
      simp [h]

/-- C1: for a store registered through `registerReducer` and any sequence of
dispatched actions, the global listener bus fires exactly once per dispatch
after which the state reference differs from the state reference before it,
and zero times per dispatch after which the state reference is unchanged:
the per-dispatch firing counts equal the change indicators of consecutive
states in the state trace. -/
theorem registered_store_fires_once_per_changing_dispatch {V : Type}
    [DecidableEq V] (red : V → V → V) (u i : V) (as : List V) :
    ((StoreObj.new red u i).dispatchAll as).2 =
      ((List.scanl red (red u i) as).zip ((List.scanl red (red u i) as).tail)).map
        (fun p => if p.2 = p.1 then 0 else 1) :=
  dispatchAll_fires_aux red as (red u i)

/-- C5: subscribing a listener and running the returned unsubscribe closure
leaves the bus without that listener; running it a second time changes
nothing (and in particular removes no other listener); and listeners other
than the unsubscribed one keep their multiplicity, so exactly that listener
instance is removed. -/
theorem subscribe_unsubscribe_removes_exactly {L : Type} [DecidableEq L]
    (ls : List L) (l x : L) (hx : x ≠ l) :
    l ∉ without (subscribe ls l) l ∧
    without (without (subscribe ls l) l) l = without (subscribe ls l) l ∧
    List.count x (without (subscribe ls l) l) = List.count x (subscribe ls l) := by
  refine ⟨?_, ?_, ?_⟩
  · intro hmem
    have := List.of_mem_filter hmem
    simp at this
  · simp [without, List.filter_filter]
  · have hsub : List.count x (subscribe ls l) = List.count x ls := by
      simp [subscribe, List.count_append, List.count_singleton]
      intro h; exact absurd h.symm hx
    have hw : List.count x (without (subscribe ls l) l) = List.count x ls := by
      rw [show without (subscribe ls l) l = List.filter (fun y => y ≠ l) (ls ++ [l])
        from rfl]
      rw [List.count_filter (by simpa using hx)]
      simp [List.count_append, List.count_singleton]
      intro h; exact absurd h.symm hx
    rw [hw, hsub]

/-- Witness for C5 at a concrete bus. -/
theorem subscribe_unsubscribe_removes_exactly_witness :
    (5 : Nat) ≠ 0 ∧
    (0 ∉ without (subscribe [5, 0] 0) 0 ∧
     without (without (subscribe [5, 0] 0) 0) 0 = without (subscribe [5, 0] 0) 0 ∧
     List.count 5 (without (subscribe [5, 0] 0) 0) = List.count 5 (subscribe [5, 0] 0)) :=
  ⟨by decide, subscribe_unsubscribe_removes_exactly [5, 0] 0 5 (by decide)⟩

theorem globalListener_all_ok {L E : Type} (behave : L → Option E) (ls : List L)
    (h : ∀ l ∈ ls, behave l = none) : globalListener behave ls = (ls, none) := by
  induction ls with
  | nil => rfl
  | cons a t ih =>
    have ha := h a (by simp)
    have ht := ih (fun l hl => h l (by simp [hl]))
    simp [globalListener, ha, ht]

theorem globalListener_first_throw {L E : Type} (behave : L → Option E)
    (pre post : List L) (bad : L) (e : E) (h1 : ∀ l ∈ pre, behave l = none)
    (h2 : behave bad = some e) :
    globalListener behave (pre ++ bad :: post) = (pre ++ [bad], some e) := by
  induction pre with
  | nil => simp [globalListener, h2]
  | cons a t ih =>
    have ha := h1 a (by simp)
    have ht := ih (fun l hl => h1 l (by simp [hl]))
    simp [globalListener, ha, ht]

/-- C7: `globalListener()` invokes every listener of the snapshot taken at
the start of the call, in registration order, when none of them throws; and
when a listener throws, the listeners before it have been invoked in order,
the throwing one is the last invoked, the remaining ones are not invoked,
and the exception propagates to the caller. -/
theorem globalListener_order_and_no_isolation {L E : Type} (behave : L → Option E)
    (ls pre post : List L) (bad : L) (e : E)
    (h0 : ∀ l ∈ ls, behave l = none)
    (h1 : ∀ l ∈ pre, behave l = none)
    (h2 : behave bad = some e) :
    globalListener behave ls = (ls, none) ∧
    globalListener behave (pre ++ bad :: post) = (pre ++ [bad], some e) :=
  ⟨globalListener_all_ok behave ls h0,
   globalListener_first_throw behave pre post bad e h1 h2⟩

/-- Witness for C7 at a concrete listener bus: listeners `a`, `b` both run;
with `a` fine and `boom` throwing, `c` is never invoked and the error
escapes. -/
theorem globalListener_order_and_no_isolation_witness :
    (∀ l ∈ ["a", "b"], (if l = "boom" then some "err" else none) = none) ∧
    globalListener (fun l => if l = "boom" then some "err" else none) ["a", "b"] =
      (["a", "b"], none) ∧
    globalListener (fun l => if l = "boom" then some "err" else none)
      (["a"] ++ "boom" :: ["c"]) = (["a"] ++ ["boom"], some "err") := by
  refine ⟨by decide, ?_⟩
  exact globalListener_order_and_no_isolation (fun l => if l = "boom" then some "err" else none)
    ["a", "b"] ["a"] ["c"] "boom" "err" (by decide) (by decide) (by decide)

/-- C8: `registerStore` throws `TypeError('Must specify store reducer')`
exactly when `options.reducer` is missing, and the throw happens before any
registration occurs (the error result carries no registry at all, so
neither the store, nor actions, nor selectors were recorded). -/
theorem registerStore_throws_iff_no_reducer {V : Type} (reg : Registry V)
    (u i : V) (k : String) (opts : StoreOptions V) :
    (registerStore reg u i k opts = .error "Must specify store reducer") ↔
      opts.reducer = none := by
  cases h : opts.reducer with
  | none => simp [registerStore, h]
  | some r => simp [registerStore, h]

/-- C10: `select` on a key that never had selectors registered returns the
empty mapping without raising, and `dispatch` on a key that never had
actions registered returns `undefined`. -/
theorem select_empty_dispatch_undefined {V : Type} (reg : Registry V) (k : String)
    (hs : reg.selectors.lookup k = none) (ha : reg.actions.lookup k = none) :
    select reg k = [] ∧ dispatch reg k = none := by
  constructor
  · simp [select, hs]
  · simp [dispatch, ha]

/-- Witness for C10 at the empty registry. -/
theorem select_empty_dispatch_undefined_witness :
    (Registry.empty (V := JSVal)).selectors.lookup "missing" = none ∧
    (Registry.empty (V := JSVal)).actions.lookup "missing" = none ∧
    (select (Registry.empty (V := JSVal)) "missing" = [] ∧
     dispatch (Registry.empty (V := JSVal)) "missing" = none) :=
  ⟨rfl, rfl, select_empty_dispatch_undefined Registry.empty "missing" rfl rfl⟩

/-- C6: in the registry holding the spec example's store under `key`,
`dispatch('key').setValue(5)` dispatches the `SET` action to the owning
store, after which `select('key').getValue()` reads that store's current
state and returns `5`. -/
theorem dispatch_then_select_roundtrip :
    ((dispatch demoRegistry "key").bind fun acts =>
      (acts.lookup "setValue").bind fun e =>
        (applyAction demoRegistry e [.num 5]).bind fun t =>
          ((select t.1 "key").lookup "getValue").bind fun f =>
            f []) = some (.num 5) := by
  rfl

/-- C9: selectors and actions are bound to the store instance present under
their key when they were registered.  After `registerReducer` is called
again for the same key, (1) the registry maps the key to the new, distinct
store; (2, 3) the selector and action entries registered before still carry
the original store; (4) the original store object is untouched by the
re-registration; (5) invoking such a selector reads the original store's
current state; (6) invoking such a bound action dispatches to the original
store, leaving the newly registered store untouched. -/
theorem rebind_keeps_original_store {V : Type} [DecidableEq V] (reg : Registry V)
    (u i : V) (k : String) (sm : List (String × RawSelector V))
    (am : List (String × (List V → V))) (r2 : V → V → V) (id0 : Nat)
    (f : V → List V → V) (b : Bool) (g : List V → V) (args sargs : List V)
    (h0 : reg.stores.lookup k = some id0)
    (hv : id0 < reg.storeHeap.length) :
    let regS := registerSelectors reg k sm
    let regA := registerActions regS k am
    let t := registerReducer regA u i k r2
    t.1.stores.lookup k = some t.2 ∧ t.2 ≠ id0 ∧
    t.1.selectors.lookup k =
      some (sm.map fun p => (p.1, ⟨some id0, p.2.sel, p.2.hasEffect⟩)) ∧
    t.1.actions.lookup k = some (am.map fun p => (p.1, ⟨some id0, p.2⟩)) ∧
    t.1.storeHeap[id0]? = reg.storeHeap[id0]? ∧
    applySelect t.1 ⟨some id0, f, b⟩ sargs =
      (reg.storeHeap[id0]?).map (fun st => f st.state sargs) ∧
    (∃ reg3 n, applyAction t.1 ⟨some id0, g⟩ args = some (reg3, n) ∧
      reg3.storeHeap[t.2]? = t.1.storeHeap[t.2]? ∧
      reg3.storeHeap[id0]? =
        (reg.storeHeap[id0]?).map (fun st => (st.dispatchAction (g args)).1)) := by
  intro regS regA t
  have hheap : t.1.storeHeap = reg.storeHeap ++ [StoreObj.new r2 u i] := rfl
  have hid : t.2 = reg.storeHeap.length := rfl
  have hget : t.1.storeHeap[id0]? = reg.storeHeap[id0]? := by
    rw [hheap]; exact List.getElem?_append_left hv
  have hsome : reg.storeHeap[id0]? = some reg.storeHeap[id0] :=
    List.getElem?_eq_getElem hv
  refine ⟨?_, ?_, ?_, ?_, hget, ?_, ?_⟩
  · show ((k, reg.storeHeap.length) :: reg.stores).lookup k = some t.2
    rw [hid]; exact List.lookup_cons_self
  · rw [hid]; exact fun h => absurd (h ▸ hv) (Nat.lt_irrefl _)
  · show ((k, sm.map fun p => (p.1, (⟨reg.stores.lookup k, p.2.sel, p.2.hasEffect⟩ :
        SelectorEntry V))) :: reg.selectors).lookup k = _
    rw [h0]; exact List.lookup_cons_self
  · show ((k, am.map fun p => (p.1, (⟨reg.stores.lookup k, p.2⟩ :
        ActionEntry V))) :: reg.actions).lookup k = _
    rw [h0]; exact List.lookup_cons_self
  · show (t.1.storeHeap[id0]?).map (fun st => f st.state sargs) = _
    rw [hget]
  · have hlen : id0 < t.1.storeHeap.length := by
      rw [hheap]; simp; omega
    have happ : applyAction t.1 ⟨some id0, g⟩ args =
        some ({ t.1 with storeHeap :=
            t.1.storeHeap.set id0 ((reg.storeHeap[id0].dispatchAction (g args)).1) },
          (reg.storeHeap[id0].dispatchAction (g args)).2) := by
      show (t.1.storeHeap[id0]?).map _ = _
      rw [hget, hsome]
      rfl
    refine ⟨_, _, happ, ?_, ?_⟩
    · show (t.1.storeHeap.set id0 _)[t.2]? = t.1.storeHeap[t.2]?
      exact List.getElem?_set_ne (by rw [hid]; omega)
    · show (t.1.storeHeap.set id0 _)[id0]? = _
      rw [List.getElem?_set_self (by simpa using hlen), hsome]
      rfl

/-- The base registry of the C9 witness: one store registered under `k`. -/
def rebindDemoBase : Registry JSVal :=
  (registerReducer Registry.empty .undefined (.str "INIT") "k" (fun s _ => s)).1

/-- Witness for C9: a registry with one store under `k`, selectors and
actions registered for it, then a second `registerReducer` under `k`. -/
theorem rebind_keeps_original_store_witness :
    (rebindDemoBase.stores.lookup "k" = some 0 ∧
     0 < rebindDemoBase.storeHeap.length) ∧
    (let regS := registerSelectors rebindDemoBase "k" [("s", ⟨fun st _ => st, false⟩)]
     let regA := registerActions regS "k" [("a", fun _ => .num 7)]
     let t := registerReducer regA .undefined (.str "INIT") "k" (fun s _ => s)
     t.1.stores.lookup "k" = some t.2 ∧ t.2 ≠ 0 ∧
     t.1.selectors.lookup "k" =
       some ([("s", (⟨fun st _ => st, false⟩ : RawSelector JSVal))].map
         fun p => (p.1, ⟨some 0, p.2.sel, p.2.hasEffect⟩)) ∧
     t.1.actions.lookup "k" =
       some ([("a", (fun _ => .num 7 : List JSVal → JSVal))].map
         fun p => (p.1, ⟨some 0, p.2⟩)) ∧
     t.1.storeHeap[(0 : Nat)]? = rebindDemoBase.storeHeap[(0 : Nat)]? ∧
     applySelect t.1 ⟨some 0, fun st _ => st, false⟩ [] =
       (rebindDemoBase.storeHeap[(0 : Nat)]?).map (fun st => st.state) ∧
     (∃ reg3 n, applyAction t.1 ⟨some 0, fun _ => .num 9⟩ [] = some (reg3, n) ∧
       reg3.storeHeap[t.2]? = t.1.storeHeap[t.2]? ∧
       reg3.storeHeap[(0 : Nat)]? =
         (rebindDemoBase.storeHeap[(0 : Nat)]?).map
           (fun st => (st.dispatchAction (.num 9)).1))) :=
  ⟨⟨by decide, by decide⟩,
   rebind_keeps_original_store rebindDemoBase .undefined (.str "INIT") "k"
     [("s", ⟨fun st _ => st, false⟩)] [("a", fun _ => .num 7)] (fun s _ => s) 0
     (fun st _ => st) false (fun _ => .num 9) [] [] (by decide) (by decide)⟩

theorem lookup_eq_none_of_not_mem_keys {β : Type} (l : List (String × β))
    (m : String) (h : m ∉ l.map Prod.fst) : l.lookup m = none := by
  rw [List.lookup_eq_none_iff]
  intro p hp
  rw [bne_iff_ne]
  intro he
  exact h (he ▸ List.mem_map_of_mem Prod.fst hp)

theorem lookup_isSome_of_mem_keys {β : Type} (l : List (String × β))
    (m : String) (h : m ∈ l.map Prod.fst) : ∃ v, l.lookup m = some v := by
  rcases List.mem_map.mp h with ⟨p, hp, he⟩
  have : (l.lookup m).isSome := by
    rw [List.lookup_isSome_iff]
    exact ⟨p, hp, by simp [he]⟩
  exact ⟨(l.lookup m).get this, (Option.some_get this).symm⟩

theorem allocProxy_keys {V R : Type} (old : List (String × Nat)) :
    ∀ (ds : List (String × (List V → R))) (n : Nat),
      ((allocProxy old ds n).1).map Prod.fst = ds.map Prod.fst := by
  intro ds
  induction ds with
  | nil => intro n; rfl
  | cons p rest ih =>
    intro n
    cases hl : old.lookup p.1 <;> simp [allocProxy, hl, ih]

theorem lookup_allocProxy_of_mem {V R : Type} (old : List (String × Nat))
    (m : String) (id : Nat) (hid : old.lookup m = some id) :
    ∀ (ds : List (String × (List V → R))) (n : Nat), m ∈ ds.map Prod.fst →
      ((allocProxy old ds n).1).lookup m = some id := by
  intro ds
  induction ds with
  | nil => intro n hm; simp at hm
  | cons p rest ih =>
    intro n hm
    by_cases hpm : p.1 = m
    · subst hpm
      simp [allocProxy, hid]
    · have hm2 : m ∈ rest.map Prod.fst := by
        rw [List.map_cons] at hm
        rcases List.mem_cons.mp hm with h | h
        · exact absurd h.symm hpm
        · exact h
      have hne : (m == p.1) = false := by
        simp [Ne.symm hpm]
      cases hl : old.lookup p.1 <;>
        simp [allocProxy, hl, List.lookup_cons, hne, ih n hm2, ih (n + 1) hm2]

/-- One `componentWillUpdate` preserves every bound-callback reference when
the new dispatcher prop-name set is (as a multiset) the mounted one. -/
theorem setProxyProps_lookup_stable {V R : Type} (mapD : MapDispatch V R)
    (p0 : List (String × V)) (c : ComponentWithDispatch V) (np : List (String × V))
    (hperm : List.Perm ((mapD np).map Prod.fst) ((mapD p0).map Prod.fst))
    (hinv : ∀ m, c.proxyProps.lookup m =
      (ComponentWithDispatch.mount (R := R) mapD p0).proxyProps.lookup m) :
    ∀ m, (ComponentWithDispatch.componentWillUpdate mapD c np).proxyProps.lookup m =
      (ComponentWithDispatch.mount (R := R) mapD p0).proxyProps.lookup m := by
  intro m
  have hkeys0 : (ComponentWithDispatch.mount (R := R) mapD p0).proxyProps.map Prod.fst =
      (mapD p0).map Prod.fst := allocProxy_keys [] (mapD p0) 0
  by_cases hm : m ∈ (mapD np).map Prod.fst
  · have hm0 : m ∈ (mapD p0).map Prod.fst := hperm.mem_iff.mp hm
    have hm0' : m ∈ (ComponentWithDispatch.mount (R := R) mapD p0).proxyProps.map Prod.fst := by
      rw [hkeys0]; exact hm0
    rcases lookup_isSome_of_mem_keys _ m hm0' with ⟨id, hid⟩
    have hc : c.proxyProps.lookup m = some id := by rw [hinv m, hid]
    rw [hid]
    exact lookup_allocProxy_of_mem c.proxyProps m id hc (mapD np) c.nextId hm
  · have hm0 : m ∉ (mapD p0).map Prod.fst := fun h => hm (hperm.mem_iff.mpr h)
    have h0 : (ComponentWithDispatch.mount (R := R) mapD p0).proxyProps.lookup m = none := by
      apply lookup_eq_none_of_not_mem_keys
      rw [hkeys0]; exact hm0
    rw [h0]
    apply lookup_eq_none_of_not_mem_keys
    rw [show (ComponentWithDispatch.componentWillUpdate mapD c np).proxyProps =
      (allocProxy (V := V) (R := R) c.proxyProps (mapD np) c.nextId).1 from rfl]
    rw [allocProxy_keys]
    exact hm

theorem applyUpdates_props {V R : Type} (mapD : MapDispatch V R) :
    ∀ (updates : List (List (String × V))) (c : ComponentWithDispatch V),
      (ComponentWithDispatch.applyUpdates mapD c updates).props =
        updates.getLastD c.props := by
  intro updates
  induction updates with
  | nil => intro c; rfl
  | cons p rest ih =>
    intro c
    rw [List.getLastD_cons]
    exact ih _

theorem applyUpdates_lookup_stable {V R : Type} (mapD : MapDispatch V R)
    (p0 : List (String × V)) :
    ∀ (updates : List (List (String × V))) (c : ComponentWithDispatch V),
      (∀ p ∈ updates, List.Perm ((mapD p).map Prod.fst) ((mapD p0).map Prod.fst)) →
      (∀ m, c.proxyProps.lookup m =
        (ComponentWithDispatch.mount (R := R) mapD p0).proxyProps.lookup m) →
      ∀ m, (ComponentWithDispatch.applyUpdates mapD c updates).proxyProps.lookup m =
        (ComponentWithDispatch.mount (R := R) mapD p0).proxyProps.lookup m := by
  intro updates
  induction updates with
  | nil => intro c _ hinv m; exact hinv m
  | cons p rest ih =>
    intro c hperm hinv m
    exact ih _ (fun q hq => hperm q (by simp [hq]))
      (setProxyProps_lookup_stable mapD p0 c p (hperm p (by simp)) hinv) m

/-- C4: for a `withDispatch` component mounted with props `p0` and
re-rendered through any sequence of prop updates along which the set of
dispatcher prop names returned by the mapping function stays the same,
(1) every injected callback prop keeps the identical function reference it
had right after mount, and (2) invoking a callback forwards its arguments to
the dispatcher recomputed from the props current at invocation time (the
props of the last update). -/
theorem withDispatch_callback_refs_stable {V R : Type} (mapD : MapDispatch V R)
    (p0 : List (String × V)) (updates : List (List (String × V)))
    (nm : String) (args : List V)
    (hperm : ∀ p ∈ updates, List.Perm ((mapD p).map Prod.fst) ((mapD p0).map Prod.fst)) :
    (ComponentWithDispatch.applyUpdates mapD
        (ComponentWithDispatch.mount (R := R) mapD p0) updates).proxyProps.lookup nm =
      (ComponentWithDispatch.mount (R := R) mapD p0).proxyProps.lookup nm ∧
    ComponentWithDispatch.proxyDispatch mapD
        (ComponentWithDispatch.applyUpdates mapD
          (ComponentWithDispatch.mount (R := R) mapD p0) updates) nm args =
      ((mapD (updates.getLastD p0)).lookup nm).map (fun d => d args) := by
  constructor
  · exact applyUpdates_lookup_stable mapD p0 updates _ hperm (fun _ => rfl) nm
  · show ((mapD (ComponentWithDispatch.applyUpdates mapD
        (ComponentWithDispatch.mount (R := R) mapD p0) updates).props).lookup nm).map _ = _
    rw [applyUpdates_props]
    rfl

/-- Witness for C4: one update with a changed prop value but the same
dispatcher prop-name set. -/
theorem withDispatch_callback_refs_stable_witness :
    (∀ p ∈ [[("x", JSVal.num 2)]],
      List.Perm (((fun q => [("send", fun _ => ((List.lookup "x" q).getD .undefined : JSVal))] :
          MapDispatch JSVal JSVal) p).map Prod.fst)
        (((fun q => [("send", fun _ => ((List.lookup "x" q).getD .undefined : JSVal))] :
          MapDispatch JSVal JSVal) [("x", JSVal.num 1)]).map Prod.fst)) ∧
    ((ComponentWithDispatch.applyUpdates
        (fun q => [("send", fun _ => ((List.lookup "x" q).getD .undefined : JSVal))])
        (ComponentWithDispatch.mount (R := JSVal)
          (fun q => [("send", fun _ => ((List.lookup "x" q).getD .undefined : JSVal))])
          [("x", JSVal.num 1)]) [[("x", JSVal.num 2)]]).proxyProps.lookup "send" =
      (ComponentWithDispatch.mount (R := JSVal)
        (fun q => [("send", fun _ => ((List.lookup "x" q).getD .undefined : JSVal))])
        [("x", JSVal.num 1)]).proxyProps.lookup "send" ∧
     ComponentWithDispatch.proxyDispatch
        (fun q => [("send", fun _ => ((List.lookup "x" q).getD .undefined : JSVal))])
        (ComponentWithDispatch.applyUpdates
          (fun q => [("send", fun _ => ((List.lookup "x" q).getD .undefined : JSVal))])
          (ComponentWithDispatch.mount (R := JSVal)
            (fun q => [("send", fun _ => ((List.lookup "x" q).getD .undefined : JSVal))])
            [("x", JSVal.num 1)]) [[("x", JSVal.num 2)]]) "send" [] =
      ((((fun q => [("send", fun _ => ((List.lookup "x" q).getD .undefined : JSVal))] :
          MapDispatch JSVal JSVal) ([[("x", JSVal.num 2)]].getLastD
            [("x", JSVal.num 1)])).lookup "send")).map (fun d => d [])) :=
  ⟨by simp, withDispatch_callback_refs_stable
    (fun q => [("send", fun _ => ((List.lookup "x" q).getD .undefined : JSVal))])
    [("x", JSVal.num 1)] [[("x", JSVal.num 2)]] "send" [] (by simp)⟩

theorem mem_of_lookup_eq_some {β : Type} {l : List (String × β)} {m : String}
    {v : β} (h : l.lookup m = some v) : (m, v) ∈ l := by
  rcases List.lookup_eq_some_iff.mp h with ⟨l1, l2, rfl, -⟩
  simp

/-- The registry with one effect-carrying selector used by the C2
scenarios. -/
def effectDemoReg : Registry JSVal :=
  registerSelectors Registry.empty "s" [("getItem", ⟨fun st _ => st, true⟩)]

/-- A `withData` mapping function requesting the same selector with the
same argument under two different prop keys. -/
def effectDemoMap :
    ResolveProvider JSVal → List (String × JSVal) → List (String × Resolver JSVal) :=
  fun rp _ =>
    match (rp "s").lookup "getItem" with
    | some f => [("a", f [.num 1]), ("b", f [.num 1])]
    | none => []

/-- The mount of the C2 counterexample component. -/
def effectDemoMount : ComponentWithData JSVal × List (String × Resolver JSVal) × Bool :=
  ComponentWithData.componentWillMount effectDemoMap effectDemoReg
    (ComponentWithData.new [])

/-- How many effect invocations in a trace used a given selector key with
given (shallowly compared) arguments. -/
def countInvocationsFor (fired : List (String × Resolver JSVal)) (key : String)
    (args : List JSVal) : Nat :=
  (fired.filter fun p => decide (p.2.key = key ∧ p.2.args = args)).length

/-- Counterexample to C2 as stated: mounting a `withData` component whose
mapping function requests the distinct pair `(getItem, [1])` under the two
prop keys `a` and `b` invokes that selector's effect twice in the single
mount, not exactly once per distinct `(key, args)` pair. -/
theorem withData_effect_twice_for_one_pair :
    countInvocationsFor effectDemoMount.2.1 "getItem" [.num 1] = 2 ∧
    countInvocationsFor effectDemoMount.2.1 "getItem" [.num 1] ≠ 1 := by
  decide

theorem lookup_eq_some_of_mem_nodup {β : Type} {l : List (String × β)}
    (hnd : (l.map Prod.fst).Nodup) {m : String} {v : β} (h : (m, v) ∈ l) :
    l.lookup m = some v := by
  induction l with
  | nil => simp at h
  | cons p rest ih =>
    rw [List.map_cons] at hnd
    rcases List.mem_cons.mp h with h1 | h1
    · rw [← h1]
      exact List.lookup_cons_self
    · have hm : m ∈ rest.map Prod.fst := by
        have := List.mem_map_of_mem Prod.fst h1
        simpa using this
      have hne : (m == p.1) = false := by
        have hp1 : p.1 ≠ m := fun he => (List.nodup_cons.mp hnd).1 (he ▸ hm)
        simp [Ne.symm hp1]
      rw [List.lookup_cons, hne]
      exact ih (List.nodup_cons.mp hnd).2 h1

/-- C2 (amended): in a `runResolvers` pass (mount or props change), the
effect of the resolver requested under prop key `pk` is invoked exactly when
the matching selector-registry entry carries an effect and the previous
resolver under the same prop key (if any) does not have the same selector
key together with shallowly equal args — so effects fire per changed prop
key, and in particular never re-fire for a resolver whose key and args are
shallowly identical to the previous one under that prop key. -/
theorem withData_effect_fires_iff_resolver_changed {V : Type} [DecidableEq V]
    (mapRes : ResolveProvider V → List (String × V) → List (String × Resolver V))
    (reg : Registry V) (c : ComponentWithData V) (props : List (String × V))
    (pk : String) (r : Resolver V)
    (hr : (mapRes (resolveProvider reg) props).lookup pk = some r) :
    (pk, r) ∈ (ComponentWithData.runResolvers mapRes reg c props).2.1 ↔
      ((∃ e, lookupSelectorEntry reg r.reducerKey r.key = some e ∧
          e.hasEffect = true) ∧
       ¬ (∃ prev, c.resolvers.lookup pk = some prev ∧
          prev.key = r.key ∧ prev.args = r.args)) := by
  have hin : (pk, r) ∈ mapRes (resolveProvider reg) props := mem_of_lookup_eq_some hr
  simp only [ComponentWithData.runResolvers, ComponentWithData.effectInvocations,
    List.mem_filter]
  cases hl : c.resolvers.lookup pk <;>
    cases he : lookupSelectorEntry reg r.reducerKey r.key <;>
      (simp [hl, he, hin]; try tauto)

/-- The C2 witness's mapping function: the same selector and argument as
the tracked resolver, under the single prop key `a`. -/
def effectDemoMapOne :
    ResolveProvider JSVal → List (String × JSVal) → List (String × Resolver JSVal) :=
  fun rp _ =>
    match (rp "s").lookup "getItem" with
    | some f => [("a", f [.num 1])]
    | none => []

/-- The C2 witness's component, already tracking the resolver
`(getItem, [1])` under prop key `a`. -/
def effectDemoPrevC : ComponentWithData JSVal :=
  ⟨[], [], [("a", ⟨[.num 1], "getItem", "s"⟩)], true⟩

/-- Witness for C2 (amended): re-running the resolvers with a resolver
record identical to the tracked one does not re-fire the effect. -/
theorem withData_effect_fires_iff_resolver_changed_witness :
    (effectDemoMapOne (resolveProvider effectDemoReg) []).lookup "a" =
      some ⟨[.num 1], "getItem", "s"⟩ ∧
    (("a", (⟨[.num 1], "getItem", "s"⟩ : Resolver JSVal)) ∈
        (ComponentWithData.runResolvers effectDemoMapOne effectDemoReg
          effectDemoPrevC []).2.1 ↔
      ((∃ e, lookupSelectorEntry effectDemoReg "s" "getItem" = some e ∧
          e.hasEffect = true) ∧
       ¬ (∃ prev, effectDemoPrevC.resolvers.lookup "a" = some prev ∧
          prev.key = "getItem" ∧ prev.args = [.num 1]))) :=
  ⟨by decide,
   withData_effect_fires_iff_resolver_changed effectDemoMapOne effectDemoReg
     effectDemoPrevC [] "a" ⟨[.num 1], "getItem", "s"⟩ (by decide)⟩

/-- The registry of the C3 scenario: one store under `s` whose state is
`0`, and one selector `getVal` reading that state. -/
def unmountDemoReg : Registry JSVal :=
  registerSelectors
    (registerReducer Registry.empty .undefined (.str "INIT") "s"
      (fun s _ => if s = .undefined then .num 0 else s)).1
    "s" [("getVal", ⟨fun st _ => st, false⟩)]

/-- The C3 scenario's mounted `withData` component: it tracks the resolver
`{val: getVal('s')}` and its state is still `{}`, so the `runSelection`
callback snapshotted by an in-flight `globalListener` cycle will compute a
shallowly different state. -/
def unmountDemoC : ComponentWithData JSVal :=
  ⟨[], [], [("val", ⟨[], "getVal", "s"⟩)], true⟩

/-- C3: the unmount latch exists only in the Selection Adapter.  For every
`withSelect` component, `componentWillUnmount` latches `isUnmounting` and a
`runSelection` already snapshotted by an in-flight notification is a no-op
afterwards (no state update is applied).  For `withData`, however,
`componentWillUnmount` only unsubscribes, and at the concrete failing input
the still-queued `runSelection` applies a `setState` after the unmount. -/
theorem unmount_guard_only_in_withSelect :
    (∀ (V : Type) [DecidableEq V]
        (mapStateToProps : SelProvider V → List (String × V) → List (String × V))
        (reg : Registry V) (props : List (String × V)) (c : ComponentWithSelect V),
      ComponentWithSelect.runSelection mapStateToProps reg
          (ComponentWithSelect.componentWillUnmount c) props =
        (ComponentWithSelect.componentWillUnmount c, false)) ∧
    ((ComponentWithData.componentWillUnmount unmountDemoC).subscribed = false ∧
     (ComponentWithData.runSelection unmountDemoReg
        (ComponentWithData.componentWillUnmount unmountDemoC)).2 = true) := by
  constructor
  · intro V _ mapStateToProps reg props c
    simp [ComponentWithSelect.runSelection, ComponentWithSelect.componentWillUnmount]
  · exact ⟨rfl, by rfl⟩

end Gutenberg
